import Mathlib

/-!
# Verification of the `tax_engine` rate-resolution pipeline

A shallow embedding of the Rust crate `tax_engine` (models, progressive income-tax
calculator, in-memory TTL cache, and the US-federal rate scraper) together with
theorems settling the specification's claims about it.

Conventions of the embedding:
* `rust_decimal::Decimal` is modelled as `ℚ`.  All decimal values appearing in the
  claims lie far inside `Decimal`'s 96-bit range, where `+`, `-`, `*`, `min` and the
  comparisons are exact, so `ℚ` is a faithful model on the inputs considered.
* `u16` years are modelled as `ℕ` (no claim exercises wrap-around).
* `std::time::Instant` is modelled as an abstract tick count `ℕ`; `elapsed()` at an
  observation instant `now` is the truncated difference `now - timestamp`
  (the monotonic clock guarantees `timestamp ≤ now`).
* Async functions are modelled as pure functions over an explicit network oracle
  (`String → HttpOutcome`), since each `await` is sequential in the source.
-/

set_option autoImplicit false

namespace TaxEngine

/-- `rust_decimal::Decimal`, modelled as `ℚ` (exact decimal arithmetic). -/
abbrev Decimal := ℚ

/-! ## `src/models/bracket.rs` -/

/-- `TaxBracket`: a single tax bracket with a rate and income bounds
(`upper_bound = none` represents no upper limit). -/
structure TaxBracket where
  lower_bound : Decimal
  upper_bound : Option Decimal
  rate : Decimal
  deriving DecidableEq, Repr

/-- `TaxSchedule`: a complete set of tax brackets for a specific tax year. -/
structure TaxSchedule where
  tax_year : ℕ
  brackets : List TaxBracket
  deriving DecidableEq, Repr

/-- The comparator of `TaxSchedule::new` and `parse_tax_brackets`:
`|a, b| a.lower_bound.cmp(&b.lower_bound)`. -/
def bracketOrder (a b : TaxBracket) : Prop := a.lower_bound ≤ b.lower_bound

instance bracketOrderDecidable : DecidableRel bracketOrder :=
  fun a b => inferInstanceAs (Decidable (a.lower_bound ≤ b.lower_bound))

instance bracketOrderTotal : IsTotal TaxBracket bracketOrder :=
  ⟨fun a b => le_total a.lower_bound b.lower_bound⟩

instance bracketOrderTrans : IsTrans TaxBracket bracketOrder :=
  ⟨fun _ _ _ hab hbc => le_trans hab hbc⟩

/-- `TaxSchedule::new`: creates a schedule with the brackets sorted by lower bound.
Rust's `sort_by` is a stable sort, and a stable sort by a fixed total preorder is a
unique function on lists, so the stable `List.insertionSort` is extensionally the
same sort. -/
def TaxSchedule.new (tax_year : ℕ) (brackets : List TaxBracket) : TaxSchedule :=
  { tax_year := tax_year, brackets := List.insertionSort bracketOrder brackets }

/-! ## `src/models/entity.rs` -/

/-- `TaxEntityType`: the type of entity being taxed. -/
inductive TaxEntityType
  | individual
  | corporation
  | partnership
  deriving DecidableEq, Repr

/-- `DeductionType`: categories of tax deductions. -/
inductive DeductionType
  | business
  | personal
  | charitable
  deriving DecidableEq, Repr

/-- `Deduction`: a single tax deduction. -/
structure Deduction where
  amount : Decimal
  category : DeductionType
  deriving DecidableEq, Repr

/-- `TaxEntity`: a taxable entity with income and deductions. -/
structure TaxEntity where
  entity_type : TaxEntityType
  income : Decimal
  deductions : List Deduction
  tax_year : ℕ
  deriving DecidableEq, Repr

/-- `TaxEntity::total_deductions`: fold of the deduction amounts from `Decimal::ZERO`. -/
def TaxEntity.total_deductions (e : TaxEntity) : Decimal :=
  e.deductions.foldl (fun acc d => acc + d.amount) 0

/-- `TaxEntity::taxable_income`: income minus total deductions (may be negative). -/
def TaxEntity.taxable_income (e : TaxEntity) : Decimal :=
  e.income - e.total_deductions

/-! ## `src/models/jurisdiction.rs` -/

/-- `Country`. -/
inductive Country
  | usa
  | canada
  deriving DecidableEq, Repr

/-- `USState`. -/
inductive USState
  | california
  | newYork
  deriving DecidableEq, Repr

/-- `CanadianProvince`. -/
inductive CanadianProvince
  | ontario
  | britishColumbia
  deriving DecidableEq, Repr

/-- `Jurisdiction`: tagged variant over federal / state / province scopes. -/
inductive Jurisdiction
  | federal (country : Country)
  | usState (state : USState)
  | canadianProvince (province : CanadianProvince)
  deriving DecidableEq, Repr

/-! ## `src/errors/tax_error.rs` -/

/-- `TaxError`: the error taxonomy of the crate. -/
inductive TaxError
  | yearMismatch
  | invalidBrackets
  | fetchError (detail : String)
  | parseError (detail : String)
  | unsupportedJurisdiction
  | rateNotAvailable (year : ℕ)
  | networkError (detail : String)
  deriving DecidableEq, Repr

/-! ## `src/calculators/income_tax.rs` -/

/-- The `for bracket in &schedule.brackets` loop of
`IncomeTaxCalculator::calculate_tax`, carried out on the accumulators
`total_tax` and `remaining_income`.  A bounded bracket with non-positive
remaining income `break`s out of the whole loop; the bracket contribution is
added only when the bracket income is strictly positive. -/
def taxLoop (totalTax remainingIncome : Decimal) : List TaxBracket → Decimal
  | [] => totalTax
  | bracket :: rest =>
    match bracket.upper_bound with
    | some upper =>
      if remainingIncome ≤ 0 then totalTax
      else
        let bracketIncome := min remainingIncome (upper - bracket.lower_bound)
        if bracketIncome > 0 then
          taxLoop (totalTax + bracketIncome * bracket.rate)
            (remainingIncome - bracketIncome) rest
        else
          taxLoop totalTax remainingIncome rest
    | none =>
      let bracketIncome := remainingIncome
      if bracketIncome > 0 then
        taxLoop (totalTax + bracketIncome * bracket.rate)
          (remainingIncome - bracketIncome) rest
      else
        taxLoop totalTax remainingIncome rest

/-- `IncomeTaxCalculator::calculate_tax`: year precondition, then the progressive
bracket walk starting from `total_tax = 0`, `remaining_income = taxable_income`. -/
def IncomeTaxCalculator.calculate_tax (entity : TaxEntity) (schedule : TaxSchedule) :
    Except TaxError Decimal :=
  if entity.tax_year ≠ schedule.tax_year then
    .error .yearMismatch
  else
    .ok (taxLoop 0 entity.taxable_income schedule.brackets)

/-! ## `src/data/cache/memory.rs` -/

/-- `CacheKey`: composite key of jurisdiction, entity type and tax year. -/
structure CacheKey where
  jurisdiction : Jurisdiction
  entity_type : TaxEntityType
  tax_year : ℕ
  deriving DecidableEq, Repr

/-- `CacheEntry`: a schedule together with its insertion timestamp. -/
structure CacheEntry where
  schedule : TaxSchedule
  timestamp : ℕ
  deriving DecidableEq, Repr

/-- `MemoryCache`: the `HashMap<CacheKey, CacheEntry>` behind the `RwLock`,
modelled as an association list (most recent insertion first), plus the fixed TTL. -/
structure MemoryCache where
  data : List (CacheKey × CacheEntry)
  ttl : ℕ
  deriving DecidableEq, Repr

/-- `MemoryCache::new`: empty map with the given TTL. -/
def MemoryCache.new (ttl : ℕ) : MemoryCache :=
  { data := [], ttl := ttl }

/-- `HashMap::get` on the modelled map. -/
def mapFind (k : CacheKey) : List (CacheKey × CacheEntry) → Option CacheEntry
  | [] => none
  | (k', e) :: rest => if k' = k then some e else mapFind k rest

/-- `HashMap::insert` on the modelled map: overwrites any entry with the same key. -/
def mapInsert (k : CacheKey) (e : CacheEntry) (m : List (CacheKey × CacheEntry)) :
    List (CacheKey × CacheEntry) :=
  (k, e) :: m.filter (fun p => p.1 ≠ k)

/-- `MemoryCache::get`: return the schedule only when an entry for the key exists
and `entry.timestamp.elapsed() < self.ttl` at observation instant `now`.
It takes `&self` (a read lock): the map is not modified, in particular an expired
entry is not deleted. -/
def MemoryCache.get (c : MemoryCache) (jurisdiction : Jurisdiction)
    (entity_type : TaxEntityType) (tax_year : ℕ) (now : ℕ) : Option TaxSchedule :=
  let key : CacheKey := ⟨jurisdiction, entity_type, tax_year⟩
  match mapFind key c.data with
  | some entry => if now - entry.timestamp < c.ttl then some entry.schedule else none
  | none => none

/-- `MemoryCache::set`: unconditionally insert a freshly timestamped entry
(`timestamp = Instant::now()`, the instant `now` of the call) and return `Ok(())`. -/
def MemoryCache.set (c : MemoryCache) (jurisdiction : Jurisdiction)
    (entity_type : TaxEntityType) (tax_year : ℕ) (schedule : TaxSchedule) (now : ℕ) :
    Except TaxError Unit × MemoryCache :=
  let key : CacheKey := ⟨jurisdiction, entity_type, tax_year⟩
  (.ok (), { c with data := mapInsert key ⟨schedule, now⟩ c.data })

/-! ## `src/data/scrapers/us_federal.rs` — fallback fetch

The HTTP client is the collaborator of spec §6; a network is modelled as an oracle
mapping a URL to the outcome of `client.get(url).send().await` (and, on a response,
of the subsequent `.text().await`). -/

instance exceptDecidableEq {ε α : Type} [DecidableEq ε] [DecidableEq α] :
    DecidableEq (Except ε α) := fun x y =>
  match x, y with
  | .ok a, .ok b =>
    if h : a = b then isTrue (by rw [h])
    else isFalse (fun hc => h (by injection hc))
  | .error a, .error b =>
    if h : a = b then isTrue (by rw [h])
    else isFalse (fun hc => h (by injection hc))
  | .ok _, .error _ => isFalse (fun hc => Except.noConfusion hc)
  | .error _, .ok _ => isFalse (fun hc => Except.noConfusion hc)

/-- Outcome of one HTTP attempt: a response with a status code and the result of
reading its body text, or a transport-level error from `send()`. -/
inductive HttpOutcome
  | response (status : ℕ) (body : Except String String)
  | transportError (msg : String)
  deriving DecidableEq

/-- `reqwest::StatusCode::is_success`: a 2xx status. -/
def statusIsSuccess (status : ℕ) : Bool := 200 ≤ status ∧ status < 300

/-- The ordered candidate URL list of `fetch_rates_from_irs` for a tax year. -/
def irsUrls (year : ℕ) : List String :=
  [ "https://www.irs.gov/newsroom/irs-provides-tax-inflation-adjustments-for-tax-year-"
      ++ toString year
  , "https://www.irs.gov/pub/irs-drop/rp-" ++ toString (year - 1) ++ "-23.pdf"
  , "https://www.irs.gov/newsroom/tax-year-" ++ toString year ++ "-inflation-adjustments" ]

/-- The candidate loop of `USFederalScraper::fetch_rates_from_irs`, carried out on
the `last_error` accumulator (initially the empty string).  A successful status
returns the body text (or fails immediately with `FetchError` if reading the body
fails); a non-success status moves on to the next candidate leaving `last_error`
unchanged; a transport error stores its message in `last_error` and moves on. -/
def fetchLoop (oracle : String → HttpOutcome) :
    List String → String → Except TaxError String
  | [], lastError => .error (.fetchError ("Failed to fetch IRS data: " ++ lastError))
  | url :: rest, lastError =>
    match oracle url with
    | .response status body =>
      if statusIsSuccess status then
        match body with
        | .ok text => .ok text
        | .error e => .error (.fetchError e)
      else
        fetchLoop oracle rest lastError
    | .transportError e => fetchLoop oracle rest e

/-- `USFederalScraper::fetch_rates_from_irs`. -/
def fetch_rates_from_irs (oracle : String → HttpOutcome) (year : ℕ) :
    Except TaxError String :=
  fetchLoop oracle (irsUrls year) ""

/-! ## `src/data/scrapers/us_federal.rs` — heuristic extraction

The two regexes are embedded as explicit matchers with the `regex` crate's
leftmost-first semantics.  Both patterns consist of character classes each
disjoint from the literal that follows it, so greedy maximal munch without
backtracking is exact for them. -/

/-- The `regex` crate's `\s` class, restricted to the ASCII inputs considered. -/
def isWs (c : Char) : Bool :=
  c = ' ' ∨ c = '\t' ∨ c = '\n' ∨ c = '\r' ∨ c = '\x0b' ∨ c = '\x0c'

/-- The class `[0-9,]`. -/
def isAmtChar (c : Char) : Bool := c.isDigit ∨ c = ','

/-- Consume the literal `ls` at the head of the input. -/
def eatLit : List Char → List Char → Option (List Char)
  | [], cs => some cs
  | _ :: _, [] => none
  | l :: ls, c :: cs => if c = l then eatLit ls cs else none

/-- Consume `\s+` (at least one whitespace character). -/
def eatWs1 (cs : List Char) : Option (List Char) :=
  let (ws, rest) := cs.span isWs
  if ws.isEmpty then none else some rest

/-- Match `(\d+)%\s+for\s+incomes\s+over\s+\$([0-9,]+)` anchored at this position,
returning the two captures. -/
def matchRateAt (cs : List Char) : Option (String × String) :=
  let (ds, r0) := cs.span Char.isDigit
  if ds.isEmpty then none
  else
    match r0 with
    | '%' :: r1 => do
      let r2 ← eatWs1 r1
      let r3 ← eatLit "for".toList r2
      let r4 ← eatWs1 r3
      let r5 ← eatLit "incomes".toList r4
      let r6 ← eatWs1 r5
      let r7 ← eatLit "over".toList r6
      let r8 ← eatWs1 r7
      match r8 with
      | '$' :: r9 =>
        let (amt, _) := r9.span isAmtChar
        if amt.isEmpty then none else some (ds.asString, amt.asString)
      | _ => none
    | _ => none

/-- Match `\$([0-9,]+)\s+or\s+less` anchored at this position, returning the
amount capture. -/
def matchDollarOrLessAt (cs : List Char) : Option String :=
  match cs with
  | '$' :: r0 =>
    let (amt, r1) := r0.span isAmtChar
    if amt.isEmpty then none
    else do
      let r2 ← eatWs1 r1
      let r3 ← eatLit "or".toList r2
      let r4 ← eatWs1 r3
      let _ ← eatLit "less".toList r4
      some amt.asString
  | _ => none

/-- Greedy `.*` followed by `\$([0-9,]+)\s+or\s+less`: the *last* position
reachable without crossing a newline (`.` does not match `\n`) at which the
trailing pattern matches. -/
def findLastDollarOrLess : List Char → Option String → Option String
  | [], acc => acc
  | cs@(c :: tl), acc =>
    if c = '\n' then acc
    else
      findLastDollarOrLess tl
        (match matchDollarOrLessAt cs with
         | some amt => some amt
         | none => acc)

/-- Match `(\d+)%.*\$([0-9,]+)\s+or\s+less` anchored at this position. -/
def matchLowestAt (cs : List Char) : Option (String × String) :=
  let (ds, r0) := cs.span Char.isDigit
  if ds.isEmpty then none
  else
    match r0 with
    | '%' :: r1 =>
      match findLastDollarOrLess r1 none with
      | some amt => some (ds.asString, amt)
      | none => none
    | _ => none

/-- `Regex::captures`: leftmost-first search, trying each start position in order. -/
def findCaptures (f : List Char → Option (String × String)) :
    List Char → Option (String × String)
  | [] => none
  | cs@(_ :: tl) =>
    match f cs with
    | some r => some r
    | none => findCaptures f tl

/-! ### Numeric conversion models -/

/-- Numeric value of a digit string (base 10, most significant first). -/
def digitsVal (ds : List Char) : ℕ :=
  ds.foldl (fun acc c => 10 * acc + (c.toNat - 48)) 0

/-- `str::parse::<u32>` on a capture of `(\d+)`: all-digit, non-empty, and the
value must fit in 32 bits (overflow is a parse error). -/
def parseU32 (s : String) : Option ℕ :=
  if s.toList ≠ [] ∧ s.toList.all Char.isDigit ∧ digitsVal s.toList < 2 ^ 32 then
    some (digitsVal s.toList)
  else none

/-- Smallest `k` with `2 ^ 52 * den ≤ num * 2 ^ k` (fuel-bounded; the fuel of
5000 covers the entire binary64 normal range). -/
def findScale (den : ℕ) : ℕ → ℕ → ℕ
  | _, 0 => 0
  | num, fuel + 1 =>
    if 2 ^ 52 * den ≤ num then 0 else findScale den (2 * num) fuel + 1

/-- `p as f64 / 100.0` for a `u32` value `p`: IEEE-754 binary64 division of the
exactly representable operands `p` and `100.0`, i.e. the exact quotient `p/100`
correctly rounded (ties to even) to 53 significand bits.  The result is returned
as a dyadic pair `(m, k)` denoting `m / 2 ^ k`, with `2 ^ 52 ≤ m ≤ 2 ^ 53` for
`p ≠ 0`; every `u32` is below `2 ^ 52 · 100`, so the quotient is in the normal
range this model covers. -/
def f64DivBy100 (p : ℕ) : ℕ × ℕ :=
  if p = 0 then (0, 0)
  else
    let k := findScale 100 p 5000
    let t := p * 2 ^ k
    let q0 := t / 100
    let r := t % 100
    let m :=
      if 2 * r < 100 then q0
      else if 100 < 2 * r then q0 + 1
      else if q0 % 2 = 0 then q0 else q0 + 1
    (m, k)

/-- The rational value of a dyadic pair `(m, k)`, i.e. `m / 2 ^ k`. -/
def dyadicVal (mk : ℕ × ℕ) : ℚ := (mk.1 : ℚ) / 2 ^ mk.2

/-- Smallest `j` with `m < t * 10 ^ j` (fuel-bounded). -/
def smallestPow10 (m : ℕ) : ℕ → ℕ → ℕ
  | _, 0 => 0
  | t, fuel + 1 => if m < t then 0 else smallestPow10 m (10 * t) fuel + 1

/-- Smallest `d` with `target ≤ m * 10 ^ d` (fuel-bounded). -/
def smallestScaleGe (target : ℕ) : ℕ → ℕ → ℕ
  | _, 0 => 0
  | m, fuel + 1 => if target ≤ m then 0 else smallestScaleGe target (10 * m) fuel + 1

/-- Modelled from rust_decimal's documentation: `Decimal::from_f64` is a *lossy*
conversion keeping at most 15 significant decimal digits of the binary value
(rounding the next digit half away from zero) and failing only on non-finite or
out-of-range values.  Here applied to a non-negative dyadic `m / 2 ^ k` (every
value this crate feeds it); the result is the decimal coefficient/scale pair
`(c, s)` denoting `c / 10 ^ s`. -/
def from_f64_digits (m k : ℕ) : Option (ℕ × ℕ) :=
  if m = 0 then some (0, 0)
  else
    let s :=
      if 2 ^ k ≤ m then 14 - smallestPow10 m (10 * 2 ^ k) 400
      else 14 + smallestScaleGe (2 ^ k) m 400
    let t := m * 10 ^ s
    let q0 := t / 2 ^ k
    let r := t % 2 ^ k
    let c := if 2 * r < 2 ^ k then q0 else q0 + 1
    if c < 2 ^ 96 then some (c, s) else none

/-- The rational value of a decimal coefficient/scale pair `(c, s)`. -/
def decimalOfScaled (c s : ℕ) : Decimal := (c : ℚ) / 10 ^ s

/-- The rate computation of both fragment parsers:
`Decimal::from_f64(caps[1].parse::<u32>() as f64 / 100.0)` for percentage `p`. -/
def rateFromPct (p : ℕ) : Option Decimal :=
  (from_f64_digits (f64DivBy100 p).1 (f64DivBy100 p).2).map
    (fun cs => decimalOfScaled cs.1 cs.2)

/-- The `ℕ`-level certificate that the rate stored for percentage `p` has the
exact value `p / 100`: the produced coefficient/scale pair `(c, s)` satisfies
`c * 100 = p * 10 ^ s`. -/
def rateCheck (p : ℕ) : Bool :=
  match from_f64_digits (f64DivBy100 p).1 (f64DivBy100 p).2 with
  | some cs => cs.1 * 100 = p * 10 ^ cs.2
  | none => false

/-- Modelled from rust_decimal's `Decimal::from_str_exact` on the character
classes this crate feeds it: optional sign, integer digits, optional `.` and
fraction digits; the scale may not exceed 28 and the coefficient must fit in
96 bits (`from_str_exact` errors rather than rounding). -/
def decimalOfParts (neg : Bool) (intPart fracPart : List Char) : Option Decimal :=
  if intPart.all Char.isDigit ∧ fracPart.all Char.isDigit
      ∧ (intPart ≠ [] ∨ fracPart ≠ [])
      ∧ fracPart.length ≤ 28
      ∧ digitsVal (intPart ++ fracPart) < 2 ^ 96 then
    let v : ℚ := (digitsVal (intPart ++ fracPart) : ℚ) / 10 ^ fracPart.length
    some (if neg then -v else v)
  else none

/-- The unsigned part of `Decimal::from_str_exact`: integer digits, optionally a
`.` and fraction digits, nothing else. -/
def fromDigitsSigned (neg : Bool) (rest : List Char) : Option Decimal :=
  let ip := rest.takeWhile Char.isDigit
  let r1 := rest.dropWhile Char.isDigit
  match r1 with
  | [] => decimalOfParts neg ip []
  | '.' :: fp => decimalOfParts neg ip fp
  | _ => none

/-- `Decimal::from_str_exact` (see `decimalOfParts`): optional sign, then digits
with an optional fractional part. -/
def from_str_exact (cs : List Char) : Option Decimal :=
  match cs with
  | [] => none
  | c :: r =>
    if c = '-' then fromDigitsSigned true r
    else if c = '+' then fromDigitsSigned false r
    else fromDigitsSigned false (c :: r)

/-- `str::trim`: drop whitespace from both ends (character-level). -/
def trimChars (cs : List Char) : List Char :=
  ((cs.dropWhile isWs).reverse.dropWhile isWs).reverse

/-- `USFederalScraper::extract_number`: trim the string, strip `$`, `,` and
spaces, require at least one digit, then parse with `Decimal::from_str_exact`. -/
def extract_number (s : String) : Option Decimal :=
  let cleaned := (trimChars s.toList).filter (fun c => c ≠ '$' ∧ c ≠ ',' ∧ c ≠ ' ')
  if cleaned.any (fun c => c.isDigit) then from_str_exact cleaned else none

/-! ### The two fragment parsers and bracket assembly -/

/-- `USFederalScraper::parse_rate_text`: on a fragment matching
`(\d+)%\s+for\s+incomes\s+over\s+\$([0-9,]+)`, the rate is
`caps[1].parse::<u32>() as f64 / 100.0` converted by `Decimal::from_f64`, and the
lower bound is `extract_number(caps[2])`; the bracket has no upper bound. -/
def parse_rate_text (text : String) : Option TaxBracket := do
  let (pct, amt) ← findCaptures matchRateAt text.toList
  let p ← parseU32 pct
  let rate ← rateFromPct p
  let lower_bound ← extract_number amt
  some { rate := rate, lower_bound := lower_bound, upper_bound := none }

/-- `USFederalScraper::parse_lowest_rate_text`: on a fragment matching
`(\d+)%.*\$([0-9,]+)\s+or\s+less`, the rate is converted the same way, the lower
bound is zero and the upper bound is `extract_number(caps[2])`. -/
def parse_lowest_rate_text (text : String) : Option TaxBracket := do
  let (pct, amt) ← findCaptures matchLowestAt text.toList
  let p ← parseU32 pct
  let rate ← rateFromPct p
  let upper_bound ← extract_number amt
  some { rate := rate, lower_bound := 0, upper_bound := some upper_bound }

/-- Does `pat` occur at some position of the input? -/
def containsAux (pat : List Char) : List Char → Bool
  | [] => (eatLit pat []).isSome
  | cs@(_ :: tl) => (eatLit pat cs).isSome || containsAux pat tl

/-- `text.contains(pat)`: substring test. -/
def containsSub (text pat : String) : Bool := containsAux pat.toList text.toList

/-- `str::to_lowercase()` on the ASCII inputs considered (character-wise
lower-casing). -/
def lowercase (s : String) : String := ⟨s.toList.map Char.toLower⟩

/-- The body of the `for element in document.select("p,div")` loop of
`parse_tax_brackets`, for one fragment's lower-cased text: each of the two
patterns is tried independently and may contribute one bracket. -/
def fragmentBrackets (text : String) : List TaxBracket :=
  (if containsSub text "% for incomes over" then
      (parse_rate_text text).toList
    else [])
  ++ (if containsSub text "lowest rate is" && containsSub text "or less" then
      (parse_lowest_rate_text text).toList
    else [])

/-- `USFederalScraper::parse_tax_brackets`, applied to the sequence of block-level
text fragments of the document (the HTML fragment extractor is the collaborator of
spec §6); each fragment's text is lower-cased first.  A non-empty result is sorted
by lower bound; an empty one is the `ParseError`. -/
def parse_tax_brackets (fragments : List String) : Except TaxError (List TaxBracket) :=
  let brackets := fragments.foldl (fun acc frag => acc ++ fragmentBrackets (lowercase frag)) []
  if ¬brackets.isEmpty then
    .ok (List.insertionSort bracketOrder brackets)
  else
    .error (.parseError "Could not find tax bracket information")

/-- `USFederalScraper::fetch_rates` (the `TaxRateScraper` impl): only
`(Federal(USA), Individual)` is served; everything else is
`UnsupportedJurisdiction` before any fetch.  `extractFragments` is the HTML
block-level text extractor collaborator applied to the fetched document. -/
def fetch_rates (oracle : String → HttpOutcome) (extractFragments : String → List String)
    (jurisdiction : Jurisdiction) (entity_type : TaxEntityType) (tax_year : ℕ) :
    Except TaxError TaxSchedule :=
  match jurisdiction, entity_type with
  | .federal .usa, .individual => do
    let content ← fetch_rates_from_irs oracle tax_year
    let brackets ← parse_tax_brackets (extractFragments content)
    if brackets.isEmpty then
      .error (.rateNotAvailable tax_year)
    else
      .ok (TaxSchedule.new tax_year brackets)
  | _, _ => .error .unsupportedJurisdiction

/-- `USFederalScraper::supports_jurisdiction`: `matches!(j, Federal(USA))`. -/
def supports_jurisdiction (jurisdiction : Jurisdiction) : Bool :=
  match jurisdiction with
  | .federal .usa => true
  | _ => false

/-! ## Spec-side characterizations of the fallback loop -/

/-- An attempt that does not short-circuit the candidate loop: a response with a
non-success status, or a transport error. -/
def attemptFails (oracle : String → HttpOutcome) (url : String) : Bool :=
  match oracle url with
  | .response status _ => !statusIsSuccess status
  | .transportError _ => true

/-- What the `last_error` accumulator holds after a run of failed attempts:
the message of the last transport error, or the initial value if every failure
was a non-success status (the loop records nothing for those). -/
def lastTransport (oracle : String → HttpOutcome) : List String → String → String
  | [], acc => acc
  | url :: rest, acc =>
    match oracle url with
    | .transportError e => lastTransport oracle rest e
    | .response _ _ => lastTransport oracle rest acc

/-! ## Concrete fixtures used by example-level conjuncts and witnesses -/

/-- A network on which every URL answers with HTTP 404. -/
def oracle404 : String → HttpOutcome := fun _ => .response 404 (.ok "not found")

/-- A network on which every URL answers with HTTP 500. -/
def oracle500 : String → HttpOutcome := fun _ => .response 500 (.ok "server error")

/-- A network on which the second candidate URL for tax year 2024 succeeds and
every other URL answers with HTTP 404. -/
def oracleSecond : String → HttpOutcome := fun url =>
  if url = "https://www.irs.gov/pub/irs-drop/rp-2023-23.pdf" then
    .response 200 (.ok "document")
  else
    .response 404 (.ok "not found")

/-- The entity of spec §8's progressive-calculation example: an individual with
gross income 100,000, one 10,000 deduction, tax year 2024. -/
def entityC1 : TaxEntity :=
  { entity_type := .individual
  , income := 100000
  , deductions := [{ amount := 10000, category := .personal }]
  , tax_year := 2024 }

/-- The bracket list `[0,50000)@15%, [50000,∞)@25%` of the same example. -/
def bracketsC1 : List TaxBracket :=
  [ { lower_bound := 0, upper_bound := some 50000, rate := 15/100 }
  , { lower_bound := 50000, upper_bound := none, rate := 25/100 } ]

/-- The example schedule, constructed through `TaxSchedule::new`. -/
def scheduleC1 : TaxSchedule := TaxSchedule.new 2024 bracketsC1

/-! ## Helper lemmas -/

/-- With non-positive remaining income the bracket walk adds nothing: a bounded
bracket breaks out of the loop and an unbounded one skips its contribution. -/
theorem taxLoop_of_nonpos : ∀ (brs : List TaxBracket) (t r : Decimal), r ≤ 0 →
    taxLoop t r brs = t
  | [], _, _, _ => rfl
  | b :: rest, t, r, h => by
    cases hub : b.upper_bound with
    | none =>
      have hr : ¬(0 : Decimal) < r := not_lt.mpr h
      simp only [taxLoop, hub, if_neg hr]
      exact taxLoop_of_nonpos rest t r h
    | some upper =>
      simp only [taxLoop, hub, if_pos h]

/-- Looking up a different key is unaffected by filtering out key `k`. -/
theorem mapFind_filter_ne (k k' : CacheKey) (h : k' ≠ k) :
    ∀ m : List (CacheKey × CacheEntry),
      mapFind k' (m.filter (fun p => p.1 ≠ k)) = mapFind k' m
  | [] => rfl
  | (k₀, e₀) :: tl => by
    rw [List.filter_cons]
    by_cases hk : k₀ = k
    · rw [if_neg (by simp [hk])]
      rw [mapFind_filter_ne k k' h tl]
      have hne : ¬k₀ = k' := by rw [hk]; exact fun hc => h hc.symm
      simp [mapFind, hne]
    · rw [if_pos (by simp [hk])]
      simp only [mapFind]
      by_cases hk' : k₀ = k'
      · simp [hk']
      · simp only [if_neg hk']
        exact mapFind_filter_ne k k' h tl

/-! ## Claim theorems -/

/-- Claim C1 — progressive marginal taxation.  With equal tax years
`calculate_tax` walks the schedule's brackets (ascending by construction, see C8)
carrying `remaining_income` and `total_tax`: a bounded bracket with non-positive
remaining income stops the walk, otherwise it taxes
`min(remaining, upper − lower)`, an unbounded bracket taxes all remaining income,
and a contribution `bracketIncome × rate` is added only when the bracket income is
strictly positive.  In particular, for brackets `[0,50000)@15%, [50000,∞)@25%` and
gross income 100,000 with a 10,000 deduction (taxable income 90,000), the tax is
exactly 17,500. -/
theorem progressive_calculation :
    (entityC1.taxable_income = 90000
      ∧ scheduleC1.brackets =
          [ { lower_bound := 0, upper_bound := some 50000, rate := 15/100 }
          , { lower_bound := 50000, upper_bound := none, rate := 25/100 } ]
      ∧ IncomeTaxCalculator.calculate_tax entityC1 scheduleC1 = .ok 17500)
    ∧ (∀ (e : TaxEntity) (s : TaxSchedule), e.tax_year = s.tax_year →
        IncomeTaxCalculator.calculate_tax e s = .ok (taxLoop 0 e.taxable_income s.brackets))
    ∧ (∀ (t r lb ub rate : Decimal) (rest : List TaxBracket), r ≤ 0 →
        taxLoop t r ({ lower_bound := lb, upper_bound := some ub, rate := rate } :: rest) = t)
    ∧ (∀ (t r lb ub rate : Decimal) (rest : List TaxBracket), 0 < r →
        taxLoop t r ({ lower_bound := lb, upper_bound := some ub, rate := rate } :: rest) =
          if 0 < min r (ub - lb) then
            taxLoop (t + min r (ub - lb) * rate) (r - min r (ub - lb)) rest
          else taxLoop t r rest)
    ∧ (∀ (t r lb rate : Decimal) (rest : List TaxBracket),
        taxLoop t r ({ lower_bound := lb, upper_bound := none, rate := rate } :: rest) =
          if 0 < r then taxLoop (t + r * rate) (r - r) rest else taxLoop t r rest) := by
  refine ⟨⟨?_, ?_, ?_⟩, ?_, ?_, ?_, ?_⟩
  · norm_num [entityC1, TaxEntity.taxable_income, TaxEntity.total_deductions]
  · norm_num [scheduleC1, TaxSchedule.new, bracketsC1, bracketOrder]
  · have hbr : scheduleC1.brackets =
        [ { lower_bound := 0, upper_bound := some 50000, rate := 15/100 }
        , { lower_bound := 50000, upper_bound := none, rate := (25 : ℚ)/100 } ] := by
      norm_num [scheduleC1, TaxSchedule.new, bracketsC1, bracketOrder]
    have hti : entityC1.taxable_income = 90000 := by
      norm_num [entityC1, TaxEntity.taxable_income, TaxEntity.total_deductions]
    have hy : entityC1.tax_year = scheduleC1.tax_year := rfl
    rw [IncomeTaxCalculator.calculate_tax, if_neg (by exact fun hc => hc hy), hti, hbr]
    norm_num [taxLoop, min_def]
  · intro e s h
    simp [IncomeTaxCalculator.calculate_tax, h]
  · intro t r lb ub rate rest h
    simp only [taxLoop, if_pos h]
  · intro t r lb ub rate rest h
    simp only [taxLoop, if_neg (not_le.mpr h)]
  · intro t r lb rate rest
    simp only [taxLoop]

/-- Witness for C1: the general conjuncts applied at the concrete example. -/
theorem progressive_calculation_witness :
    IncomeTaxCalculator.calculate_tax entityC1 scheduleC1 =
      .ok (taxLoop 0 entityC1.taxable_income scheduleC1.brackets)
    ∧ taxLoop 7 (-3) ({ lower_bound := 0, upper_bound := some 10, rate := 1/2 } :: []) = 7 :=
  ⟨progressive_calculation.2.1 entityC1 scheduleC1 (by decide),
   progressive_calculation.2.2.1 7 (-3) 0 10 (1/2) [] (by norm_num)⟩

/-- Claim C6 — `calculate_tax` fails with `YearMismatch` exactly when the tax
years differ, and in that case the result is `YearMismatch` for every entity and
schedule with those years, independent of incomes and brackets (no bracket
arithmetic is performed). -/
theorem year_mismatch_iff :
    ∀ (e : TaxEntity) (s : TaxSchedule),
    (IncomeTaxCalculator.calculate_tax e s = .error .yearMismatch ↔ e.tax_year ≠ s.tax_year)
    ∧ (e.tax_year ≠ s.tax_year → ∀ (e' : TaxEntity) (s' : TaxSchedule),
        e'.tax_year = e.tax_year → s'.tax_year = s.tax_year →
        IncomeTaxCalculator.calculate_tax e' s' = .error .yearMismatch) := by
  intro e s
  constructor
  · by_cases h : e.tax_year = s.tax_year <;>
      simp [IncomeTaxCalculator.calculate_tax, h]
  · intro h e' s' he hs
    have h' : e'.tax_year ≠ s'.tax_year := by rw [he, hs]; exact h
    simp [IncomeTaxCalculator.calculate_tax, h']

/-- Witness for C6: year 2023 entity against year 2024 schedule. -/
theorem year_mismatch_iff_witness :
    IncomeTaxCalculator.calculate_tax
      { entity_type := .individual, income := 100000, deductions := [], tax_year := 2023 }
      (TaxSchedule.new 2024 bracketsC1) = .error .yearMismatch :=
  (year_mismatch_iff
    { entity_type := .individual, income := 100000, deductions := [], tax_year := 2023 }
    (TaxSchedule.new 2024 bracketsC1)).1.mpr (by decide)

/-- Claim C7 — when total deductions reach or exceed gross income (taxable income
non-positive) and the years match, the tax is exactly zero for every bracket
configuration. -/
theorem nonpositive_income_zero_tax :
    ∀ (e : TaxEntity) (s : TaxSchedule), e.tax_year = s.tax_year →
    e.income ≤ e.total_deductions →
    IncomeTaxCalculator.calculate_tax e s = .ok 0 := by
  intro e s hy hd
  have hti : e.taxable_income ≤ 0 := by
    unfold TaxEntity.taxable_income
    linarith
  simp [IncomeTaxCalculator.calculate_tax, hy, taxLoop_of_nonpos _ _ _ hti]

/-- Witness for C7: deductions 120,000 against income 100,000, a malformed
bracket list included. -/
theorem nonpositive_income_zero_tax_witness :
    IncomeTaxCalculator.calculate_tax
      { entity_type := .individual, income := 100000
      , deductions := [{ amount := 120000, category := .business }], tax_year := 2024 }
      { tax_year := 2024
      , brackets := [ { lower_bound := 50, upper_bound := some 10, rate := -3 }
                    , { lower_bound := 0, upper_bound := none, rate := 1/4 } ] } = .ok 0 :=
  nonpositive_income_zero_tax _ _ (by decide)
    (by norm_num [TaxEntity.total_deductions, List.foldl])

/-- Claim C8 — `TaxSchedule::new` sorts every input bracket list into
non-decreasing order of `lower_bound`, never rejecting anything: the result is a
permutation of the input with the given tax year. -/
theorem schedule_sorted_on_construction :
    ∀ (y : ℕ) (brs : List TaxBracket),
    ((TaxSchedule.new y brs).brackets.Pairwise fun a b => a.lower_bound ≤ b.lower_bound)
    ∧ (TaxSchedule.new y brs).brackets.Perm brs
    ∧ (TaxSchedule.new y brs).tax_year = y := by
  intro y brs
  exact ⟨List.sorted_insertionSort bracketOrder brs, List.perm_insertionSort bracketOrder brs, rfl⟩

/-- Claim C10 — a schedule with an empty bracket list is accepted by the
calculator (given a matching year) and yields `Ok(0)`; `TaxSchedule::new` does
construct such a schedule. -/
theorem empty_schedule_zero_tax :
    (∀ (e : TaxEntity) (s : TaxSchedule), s.brackets = [] → e.tax_year = s.tax_year →
      IncomeTaxCalculator.calculate_tax e s = .ok 0)
    ∧ ∀ y : ℕ, (TaxSchedule.new y []).brackets = [] := by
  constructor
  · intro e s hb hy
    simp [IncomeTaxCalculator.calculate_tax, hy, hb, taxLoop]
  · intro y
    rfl

/-- Witness for C10: any income, empty brackets, matching year. -/
theorem empty_schedule_zero_tax_witness :
    IncomeTaxCalculator.calculate_tax
      { entity_type := .corporation, income := 123456, deductions := [], tax_year := 2024 }
      (TaxSchedule.new 2024 []) = .ok 0 :=
  empty_schedule_zero_tax.1 _ _ (empty_schedule_zero_tax.2 2024) (by decide)

/-- Claim C4 — cache semantics at an observation instant `now`: `get` returns the
schedule exactly when an entry for the key exists whose age `now − timestamp` is
strictly below the TTL (and does not modify the map — `get` takes a read lock);
`set` always succeeds, overwrites the key with a freshly timestamped entry and
leaves other keys untouched; a `set` at time `t` followed by a `get` at `now`
returns the schedule if `now − t < ttl` and behaves as absent once `ttl ≤ now − t`. -/
theorem cache_get_set_semantics :
    ∀ (c : MemoryCache) (j : Jurisdiction) (et : TaxEntityType) (y now t : ℕ)
      (sched : TaxSchedule),
    (∀ s, MemoryCache.get c j et y now = some s ↔
        ∃ e, mapFind ⟨j, et, y⟩ c.data = some e ∧ now - e.timestamp < c.ttl ∧ e.schedule = s)
    ∧ (MemoryCache.set c j et y sched t).1 = .ok ()
    ∧ (MemoryCache.set c j et y sched t).2.ttl = c.ttl
    ∧ mapFind ⟨j, et, y⟩ (MemoryCache.set c j et y sched t).2.data = some ⟨sched, t⟩
    ∧ (∀ k' : CacheKey, k' ≠ ⟨j, et, y⟩ →
        mapFind k' (MemoryCache.set c j et y sched t).2.data = mapFind k' c.data)
    ∧ (now - t < c.ttl →
        MemoryCache.get (MemoryCache.set c j et y sched t).2 j et y now = some sched)
    ∧ (c.ttl ≤ now - t →
        MemoryCache.get (MemoryCache.set c j et y sched t).2 j et y now = none) := by
  intro c j et y now t sched
  refine ⟨?_, rfl, rfl, ?_, ?_, ?_, ?_⟩
  · intro s
    simp only [MemoryCache.get]
    cases hf : mapFind ⟨j, et, y⟩ c.data with
    | none => simp
    | some e =>
      by_cases ht : now - e.timestamp < c.ttl
      · simp only [if_pos ht, Option.some_inj]
        constructor
        · intro hs
          exact ⟨e, rfl, ht, hs⟩
        · rintro ⟨e', he', ht', hs⟩
          subst he'
          exact hs
      · simp only [if_neg ht]
        constructor
        · intro hs
          simp at hs
        · rintro ⟨e', he', ht', _⟩
          injection he' with h
          subst h
          exact absurd ht' ht
  · simp [MemoryCache.set, mapInsert, mapFind]
  · intro k' hk
    simp only [MemoryCache.set, mapInsert, mapFind]
    rw [if_neg (fun hc => hk hc.symm)]
    exact mapFind_filter_ne _ _ hk c.data
  · intro h
    simp [MemoryCache.get, MemoryCache.set, mapInsert, mapFind, h]
  · intro h
    simp [MemoryCache.get, MemoryCache.set, mapInsert, mapFind, not_lt.mpr h]

/-- Witness for C4: TTL 60, write at tick 100, read back at tick 130 (hit) and at
tick 160 (expired, absent). -/
theorem cache_get_set_semantics_witness :
    MemoryCache.get ((MemoryCache.new 60).set (.federal .usa) .individual 2024
        { tax_year := 2024, brackets := [] } 100).2 (.federal .usa) .individual 2024 130 =
      some { tax_year := 2024, brackets := [] }
    ∧ MemoryCache.get ((MemoryCache.new 60).set (.federal .usa) .individual 2024
        { tax_year := 2024, brackets := [] } 100).2 (.federal .usa) .individual 2024 160 = none
    ∧ ((MemoryCache.new 60).set (.federal .usa) .individual 2024
        { tax_year := 2024, brackets := [] } 100).1 = .ok () :=
  ⟨(cache_get_set_semantics (MemoryCache.new 60) (.federal .usa) .individual 2024 130 100
      { tax_year := 2024, brackets := [] }).2.2.2.2.2.1 (by decide),
   (cache_get_set_semantics (MemoryCache.new 60) (.federal .usa) .individual 2024 160 100
      { tax_year := 2024, brackets := [] }).2.2.2.2.2.2 (by decide),
   (cache_get_set_semantics (MemoryCache.new 60) (.federal .usa) .individual 2024 160 100
      { tax_year := 2024, brackets := [] }).2.1⟩

/-- A run of failing candidates followed by a successful one short-circuits at the
first success, whatever `last_error` holds. -/
theorem fetchLoop_first_success (oracle : String → HttpOutcome) (url body : String)
    (status : ℕ) (hok : oracle url = .response status (.ok body))
    (hs : statusIsSuccess status) :
    ∀ pre : List String, (∀ u ∈ pre, attemptFails oracle u) →
    ∀ (rest : List String) (le : String),
      fetchLoop oracle (pre ++ url :: rest) le = .ok body
  | [], _, rest, le => by simp [fetchLoop, hok, hs]
  | u :: pre', hfail, rest, le => by
    have hu : attemptFails oracle u := hfail u (List.mem_cons_self u pre')
    have hpre' : ∀ v ∈ pre', attemptFails oracle v :=
      fun v hv => hfail v (List.mem_cons_of_mem u hv)
    cases ho : oracle u with
    | response st b =>
      have hns : statusIsSuccess st = false := by
        simpa [attemptFails, ho] using hu
      simp only [List.cons_append, fetchLoop, ho, hns, Bool.false_eq_true, if_false]
      exact fetchLoop_first_success oracle url body status hok hs pre' hpre' rest le
    | transportError e =>
      simp only [List.cons_append, fetchLoop, ho]
      exact fetchLoop_first_success oracle url body status hok hs pre' hpre' rest e

/-- When every candidate fails, the loop ends with `FetchError` carrying the
message computed by `lastTransport`: transport errors overwrite the accumulator,
non-success statuses leave it unchanged. -/
theorem fetchLoop_all_fail (oracle : String → HttpOutcome) :
    ∀ urls : List String, (∀ u ∈ urls, attemptFails oracle u) →
    ∀ le : String,
      fetchLoop oracle urls le =
        .error (.fetchError ("Failed to fetch IRS data: " ++ lastTransport oracle urls le))
  | [], _, le => rfl
  | u :: rest, hfail, le => by
    have hu : attemptFails oracle u := hfail u (List.mem_cons_self u rest)
    have hrest : ∀ v ∈ rest, attemptFails oracle v :=
      fun v hv => hfail v (List.mem_cons_of_mem u hv)
    cases ho : oracle u with
    | response st b =>
      have hns : statusIsSuccess st = false := by
        simpa [attemptFails, ho] using hu
      simp only [fetchLoop, lastTransport, ho, hns, Bool.false_eq_true, if_false]
      exact fetchLoop_all_fail oracle rest hrest le
    | transportError e =>
      simp only [fetchLoop, lastTransport, ho]
      exact fetchLoop_all_fail oracle rest hrest e

/-- Claim C3 (amended) — the fallback fetch attempts its candidate URLs strictly
in order and returns the body of the first response whose status indicates
success; a transport error is recorded as the last error and the loop proceeds;
a non-success status also proceeds but records nothing; if no candidate succeeds
the fetch fails with `FetchError` carrying the last recorded transport-error
message (the empty initial value when every failure was a non-success status). -/
theorem fallback_fetch_amended :
    ∀ (oracle : String → HttpOutcome) (year : ℕ) (le : String)
      (urls pre rest : List String) (url body : String) (status : ℕ),
    fetch_rates_from_irs oracle year = fetchLoop oracle (irsUrls year) ""
    ∧ ((∀ u ∈ pre, attemptFails oracle u) → oracle url = .response status (.ok body) →
        statusIsSuccess status → fetchLoop oracle (pre ++ url :: rest) le = .ok body)
    ∧ ((∀ u ∈ urls, attemptFails oracle u) →
        fetchLoop oracle urls le =
          .error (.fetchError ("Failed to fetch IRS data: " ++ lastTransport oracle urls le))) := by
  intro oracle year le urls pre rest url body status
  refine ⟨rfl, ?_, ?_⟩
  · intro hpre hok hs
    exact fetchLoop_first_success oracle url body status hok hs pre hpre rest le
  · intro hall
    exact fetchLoop_all_fail oracle urls hall le

/-- Witness for C3 (amended): with the first 2024 candidate failing on a 404, the
second candidate's body is returned; with every candidate failing, the
`lastTransport` message is carried. -/
theorem fallback_fetch_amended_witness :
    fetchLoop oracleSecond (irsUrls 2024) "" = .ok "document"
    ∧ fetchLoop oracle404 (irsUrls 2024) "" =
        .error (.fetchError ("Failed to fetch IRS data: "
          ++ lastTransport oracle404 (irsUrls 2024) "")) :=
  ⟨(fallback_fetch_amended oracleSecond 2024 "" []
      ["https://www.irs.gov/newsroom/irs-provides-tax-inflation-adjustments-for-tax-year-"
        ++ toString 2024]
      ["https://www.irs.gov/newsroom/tax-year-" ++ toString 2024 ++ "-inflation-adjustments"]
      ("https://www.irs.gov/pub/irs-drop/rp-" ++ toString (2024 - 1) ++ "-23.pdf")
      "document" 200).2.1 (by decide) (by decide) (by decide),
   (fallback_fetch_amended oracle404 2024 "" (irsUrls 2024) [] [] "" "" 0).2.2 (by decide)⟩

/-- Claim C3 counterexample — the claim says every failure, non-success status
included, is recorded as the last error and the final `FetchError` carries the
last recorded failure detail.  On a network answering 404 (or 500) everywhere,
all three candidates fail but the `FetchError` detail is the *empty* initial
accumulator — indistinguishable between the two networks — so non-success
statuses are never recorded. -/
theorem fallback_fetch_counterexample :
    fetch_rates_from_irs oracle404 2024 = .error (.fetchError "Failed to fetch IRS data: ")
    ∧ fetch_rates_from_irs oracle500 2024 = .error (.fetchError "Failed to fetch IRS data: ")
    ∧ fetch_rates_from_irs oracle404 2024 = fetch_rates_from_irs oracle500 2024 := by
  refine ⟨by decide, by decide, by decide⟩

/-- Claim C9 — every `(jurisdiction, entityType)` other than
`(Federal(USA), Individual)` makes `fetch_rates` fail with
`UnsupportedJurisdiction`, with a result independent of the network (no fetch is
attempted); `supports_jurisdiction` holds exactly for `Federal(USA)`. -/
theorem unsupported_jurisdiction_no_fetch :
    ∀ (j : Jurisdiction) (et : TaxEntityType),
    (¬(j = .federal .usa ∧ et = .individual) →
      ∀ (oracle : String → HttpOutcome) (extractFragments : String → List String) (y : ℕ),
        fetch_rates oracle extractFragments j et y = .error .unsupportedJurisdiction)
    ∧ (supports_jurisdiction j = true ↔ j = .federal .usa) := by
  intro j et
  constructor
  · intro h oracle extractFragments y
    cases j with
    | federal c =>
      cases c with
      | usa =>
        cases et with
        | individual => exact absurd ⟨rfl, rfl⟩ h
        | corporation => rfl
        | partnership => rfl
      | canada => cases et <;> rfl
    | usState s => cases et <;> rfl
    | canadianProvince p => cases et <;> rfl
  · cases j with
    | federal c => cases c <;> simp [supports_jurisdiction]
    | usState s => simp [supports_jurisdiction]
    | canadianProvince p => simp [supports_jurisdiction]

/-- Witness for C9: `(Federal(Canada), Individual)` is rejected without touching
the network. -/
theorem unsupported_jurisdiction_no_fetch_witness :
    fetch_rates (fun _ => .transportError "offline") (fun _ => [])
      (.federal .canada) .individual 2024 = .error .unsupportedJurisdiction :=
  (unsupported_jurisdiction_no_fetch (.federal .canada) .individual).1
    (by decide) (fun _ => .transportError "offline") (fun _ => []) 2024

/-- A fold that appends nothing to its accumulator returns the accumulator. -/
theorem foldl_append_of_all_nil {α β : Type} (g : α → List β) :
    ∀ (l : List α) (init : List β), (∀ x ∈ l, g x = []) →
      l.foldl (fun acc x => acc ++ g x) init = init
  | [], _, _ => rfl
  | x :: tl, init, h => by
    rw [List.foldl_cons, h x (List.mem_cons_self x tl), List.append_nil]
    exact foldl_append_of_all_nil g tl init (fun v hv => h v (List.mem_cons_of_mem x hv))

/-- Claim C5 — the federal source never returns a zero-bracket schedule: a
successful `parse_tax_brackets` always carries at least one bracket, a document
in which no fragment matches fails with `ParseError`, and every `Ok` result of
`fetch_rates` is a schedule with at least one bracket. -/
theorem no_zero_bracket_schedule :
    ∀ (frags : List String) (brs : List TaxBracket)
      (oracle : String → HttpOutcome) (extractFragments : String → List String)
      (j : Jurisdiction) (et : TaxEntityType) (y : ℕ) (s : TaxSchedule),
    (parse_tax_brackets frags = .ok brs → brs ≠ [])
    ∧ ((∀ frag ∈ frags, fragmentBrackets (lowercase frag) = []) →
        parse_tax_brackets frags =
          .error (.parseError "Could not find tax bracket information"))
    ∧ (fetch_rates oracle extractFragments j et y = .ok s → s.brackets ≠ []) := by
  intro frags brs oracle extractFragments j et y s
  refine ⟨?_, ?_, ?_⟩
  · intro h
    unfold parse_tax_brackets at h
    by_cases hB :
        (frags.foldl (fun acc frag => acc ++ fragmentBrackets (lowercase frag)) []).isEmpty
    · rw [if_neg (by simpa using hB)] at h
      exact absurd h (by simp)
    · rw [if_pos (by simpa using hB)] at h
      injection h with h'
      intro hc
      rw [hc] at h'
      have hperm := List.perm_insertionSort bracketOrder
        (frags.foldl (fun acc frag => acc ++ fragmentBrackets (lowercase frag)) [])
      rw [h'] at hperm
      exact absurd (List.isEmpty_iff.mpr hperm.symm.eq_nil) hB
  · intro hall
    unfold parse_tax_brackets
    rw [foldl_append_of_all_nil _ frags [] hall]
    rfl
  · intro h
    cases j with
    | federal c =>
      cases c with
      | usa =>
        cases et with
        | individual =>
          simp only [fetch_rates, bind, Except.bind] at h
          cases hc : fetch_rates_from_irs oracle y with
          | error e => simp [hc] at h
          | ok content =>
            simp only [hc] at h
            cases hp : parse_tax_brackets (extractFragments content) with
            | error e => simp [hp] at h
            | ok brackets =>
              simp only [hp] at h
              by_cases hbe : brackets.isEmpty
              · rw [if_pos hbe] at h
                exact absurd h (by simp)
              · rw [if_neg hbe] at h
                injection h with h'
                subst h'
                intro hc'
                have hperm := List.perm_insertionSort bracketOrder brackets
                have hb : (TaxSchedule.new y brackets).brackets =
                    List.insertionSort bracketOrder brackets := rfl
                rw [hb] at hc'
                rw [hc'] at hperm
                exact absurd (List.isEmpty_iff.mpr hperm.symm.eq_nil) hbe
        | corporation => exact absurd h (by simp [fetch_rates])
        | partnership => exact absurd h (by simp [fetch_rates])
      | canada => cases et <;> exact absurd h (by simp [fetch_rates])
    | usState st => cases et <;> exact absurd h (by simp [fetch_rates])
    | canadianProvince pr => cases et <;> exact absurd h (by simp [fetch_rates])

/-- Witness for C5: a document none of whose fragments matches either pattern
fails with the `ParseError`. -/
theorem no_zero_bracket_schedule_witness :
    parse_tax_brackets ["Standard deduction rises to $14,600"] =
      .error (.parseError "Could not find tax bracket information") :=
  (no_zero_bracket_schedule ["Standard deduction rises to $14,600"] [] oracle404
      (fun _ => []) (.federal .usa) .individual 2024
      { tax_year := 2024, brackets := [] }).2.1 (by decide)

/-- An amount character (digit or comma) is not whitespace. -/
theorem amt_not_ws {c : Char} (h : isAmtChar c = true) : isWs c = false := by
  rcases (by simpa [isAmtChar] using h : c.isDigit = true ∨ c = ',') with hd | hc
  · simp only [isWs, decide_eq_false_iff_not]
    rintro (rfl | rfl | rfl | rfl | rfl | rfl) <;> exact absurd hd (by decide)
  · subst hc; decide

/-- On amount characters, surviving the `$`/`,`/space strip is being a digit. -/
theorem amt_filter_eq {c : Char} (h : isAmtChar c = true) :
    decide (c ≠ '$' ∧ c ≠ ',' ∧ c ≠ ' ') = c.isDigit := by
  rcases (by simpa [isAmtChar] using h : c.isDigit = true ∨ c = ',') with hd | hc
  · rw [hd]
    apply decide_eq_true
    refine ⟨?_, ?_, ?_⟩ <;> rintro rfl <;> exact absurd hd (by decide)
  · subst hc; decide

/-- `dropWhile` is the identity when no element satisfies the predicate. -/
theorem dropWhile_eq_self_of_not {p : Char → Bool} :
    ∀ l : List Char, (∀ c ∈ l, p c = false) → l.dropWhile p = l
  | [], _ => rfl
  | c :: tl, h => by
    simp [List.dropWhile_cons, h c (List.mem_cons_self c tl)]

/-- Trimming a string with no whitespace is the identity. -/
theorem trimChars_eq_self (l : List Char) (h : ∀ c ∈ l, isWs c = false) :
    trimChars l = l := by
  unfold trimChars
  rw [dropWhile_eq_self_of_not l h,
    dropWhile_eq_self_of_not l.reverse (fun c hc => h c (List.mem_reverse.mp hc)),
    List.reverse_reverse]

/-- `from_str_exact` on a non-empty all-digit string is the exact natural value. -/
theorem from_str_exact_digits (l : List Char) (hne : l ≠ [])
    (hd : ∀ c ∈ l, c.isDigit = true) (hsize : digitsVal l < 2 ^ 96) :
    from_str_exact l = some ((digitsVal l : ℚ)) := by
  obtain ⟨d, ds, rfl⟩ := List.exists_cons_of_ne_nil hne
  have hd0 := hd d (List.mem_cons_self d ds)
  have h1 : ¬d = '-' := fun hc => absurd hd0 (by rw [hc]; decide)
  have h2 : ¬d = '+' := fun hc => absurd hd0 (by rw [hc]; decide)
  simp only [from_str_exact]
  rw [if_neg h1, if_neg h2]
  unfold fromDigitsSigned
  rw [List.takeWhile_eq_self_iff.mpr (fun c hc => hd c hc),
    List.dropWhile_eq_nil_iff.mpr (fun c hc => hd c hc)]
  show decimalOfParts false (d :: ds) [] = some ((digitsVal (d :: ds) : ℚ))
  unfold decimalOfParts
  rw [if_pos ⟨List.all_eq_true.mpr hd, by decide, Or.inl (List.cons_ne_nil d ds),
    by decide, by simpa using hsize⟩]
  simp

/-- `extract_number` on a capture of `([0-9,]+)` (with room in 96 bits) is exactly
the natural number written by its digits. -/
theorem extract_number_exact (s : String) (_hne : s.toList ≠ [])
    (hamt : ∀ c ∈ s.toList, isAmtChar c = true)
    (hdig : ∃ c, c ∈ s.toList ∧ c.isDigit = true)
    (hsize : digitsVal (s.toList.filter Char.isDigit) < 2 ^ 96) :
    extract_number s = some ((digitsVal (s.toList.filter Char.isDigit) : ℚ)) := by
  obtain ⟨c0, hc0, hd0⟩ := hdig
  have hmem : c0 ∈ s.toList.filter Char.isDigit := List.mem_filter.mpr ⟨hc0, hd0⟩
  simp only [extract_number]
  rw [trimChars_eq_self s.toList (fun c hc => amt_not_ws (hamt c hc))]
  rw [List.filter_congr (fun c hc => amt_filter_eq (hamt c hc))]
  rw [if_pos (List.any_eq_true.mpr ⟨c0, hmem, hd0⟩)]
  exact from_str_exact_digits _ (List.ne_nil_of_mem hmem)
    (fun c hc => (List.mem_filter.mp hc).2) hsize

/-- Turning the `ℕ`-level certificate `c * 100 = p * 10 ^ s` into the exact
rational rate. -/
theorem decimalOfScaled_eq_div (c s p : ℕ) (h : c * 100 = p * 10 ^ s) :
    decimalOfScaled c s = (p : ℚ) / 100 := by
  unfold decimalOfScaled
  rw [div_eq_div_iff (by positivity) (by norm_num)]
  exact_mod_cast h

/-- A passing `rateCheck` pins the stored rate to exactly `p / 100`. -/
theorem rateFromPct_of_check (p : ℕ) (h : rateCheck p = true) :
    rateFromPct p = some ((p : ℚ) / 100) := by
  unfold rateCheck at h
  unfold rateFromPct
  cases hf : from_f64_digits (f64DivBy100 p).1 (f64DivBy100 p).2 with
  | none => simp [hf] at h
  | some cs =>
    simp only [hf, decide_eq_true_eq] at h
    simp only [Option.map]
    rw [decimalOfScaled_eq_div cs.1 cs.2 p h]

set_option maxRecDepth 40000 in
/-- For every integer percentage up to 100, the lossy binary round trip still
produces a coefficient/scale pair worth exactly `p / 100`. -/
theorem rateCheck_upto_100 : ∀ p : ℕ, p < 101 → rateCheck p = true := by decide

/-- Claim C2 (amended) — for every fragment matched by either bracket pattern,
the captured dollar amount is parsed as an exact decimal after stripping the
currency symbol, thousands separators and surrounding whitespace; the captured
percentage, however, is converted *through binary floating point*: parsed as an
integer, divided by 100 in `f64` (an inexact intermediate, see the
counterexample) and converted by rust_decimal's lossy `from_f64`, which rounds
to 15 significant digits — so for every percentage up to 100 the stored rate
still equals exactly the percentage over 100. -/
theorem rate_extraction_amended :
    ∀ (text pct amt s : String) (p : ℕ) (b : TaxBracket),
    (s.toList ≠ [] → (∀ c ∈ s.toList, isAmtChar c = true) →
      (∃ c, c ∈ s.toList ∧ c.isDigit = true) →
      digitsVal (s.toList.filter Char.isDigit) < 2 ^ 96 →
      extract_number s = some ((digitsVal (s.toList.filter Char.isDigit) : ℚ)))
    ∧ (p ≤ 100 → rateFromPct p = some ((p : ℚ) / 100))
    ∧ (findCaptures matchRateAt text.toList = some (pct, amt) → parseU32 pct = some p →
        parse_rate_text text = some b →
        b.upper_bound = none ∧ extract_number amt = some b.lower_bound
          ∧ rateFromPct p = some b.rate ∧ (p ≤ 100 → b.rate = (p : ℚ) / 100))
    ∧ (findCaptures matchLowestAt text.toList = some (pct, amt) → parseU32 pct = some p →
        parse_lowest_rate_text text = some b →
        b.lower_bound = 0 ∧ extract_number amt = b.upper_bound
          ∧ rateFromPct p = some b.rate ∧ (p ≤ 100 → b.rate = (p : ℚ) / 100)) := by
  intro text pct amt s p b
  refine ⟨extract_number_exact s, ?_, ?_, ?_⟩
  · intro hp
    exact rateFromPct_of_check p (rateCheck_upto_100 p (by omega))
  · intro hcap hp hb
    simp only [parse_rate_text, hcap, Option.bind_eq_bind, Option.some_bind, hp] at hb
    cases hr : rateFromPct p with
    | none => simp [hr] at hb
    | some r =>
      simp only [hr, Option.some_bind] at hb
      cases he : extract_number amt with
      | none => simp [he] at hb
      | some lb =>
        simp only [he, Option.some_bind, Option.some_inj] at hb
        subst hb
        refine ⟨rfl, rfl, rfl, ?_⟩
        intro hple
        have hch := rateFromPct_of_check p (rateCheck_upto_100 p (by omega))
        rw [hr] at hch
        exact Option.some_inj.mp hch
  · intro hcap hp hb
    simp only [parse_lowest_rate_text, hcap, Option.bind_eq_bind, Option.some_bind, hp] at hb
    cases hr : rateFromPct p with
    | none => simp [hr] at hb
    | some r =>
      simp only [hr, Option.some_bind] at hb
      cases he : extract_number amt with
      | none => simp [he] at hb
      | some ub =>
        simp only [he, Option.some_bind, Option.some_inj] at hb
        subst hb
        refine ⟨rfl, rfl, rfl, ?_⟩
        intro hple
        have hch := rateFromPct_of_check p (rateCheck_upto_100 p (by omega))
        rw [hr] at hch
        exact Option.some_inj.mp hch

set_option maxRecDepth 40000 in
/-- Witness for C2 (amended): the amount capture `243,725` parses to exactly
243725, and the 35% rate lands on exactly 35/100. -/
theorem rate_extraction_amended_witness :
    extract_number "243,725" = some ((digitsVal ("243,725".toList.filter Char.isDigit) : ℚ))
    ∧ rateFromPct 35 = some ((35 : ℚ) / 100) :=
  ⟨(rate_extraction_amended "" "" "" "243,725" 35
      { lower_bound := 0, upper_bound := none, rate := 0 }).1
      (by decide) (by decide) (by decide) (by decide),
   (rate_extraction_amended "" "" "" "243,725" 35
      { lower_bound := 0, upper_bound := none, rate := 0 }).2.1 (by norm_num)⟩

set_option maxRecDepth 40000 in
/-- Claim C2 counterexample — the claim says the captured percentage is divided
by 100 and parsed exactly, *not through binary floating point*.  On the fragment
`"35% for incomes over $243,725"` the pattern captures `35`; the code computes
`35u32 as f64 / 100.0`, and that intermediate binary64 value is
`6305039478318694 / 2^54`, which is *not* `35/100` — the division is performed
in binary floating point and is inexact (the final stored rate only recovers
`35/100` through `from_f64`'s 15-digit rounding). -/
theorem rate_extraction_counterexample :
    findCaptures matchRateAt (lowercase "35% for incomes over $243,725").toList
        = some ("35", "243,725")
    ∧ parseU32 "35" = some 35
    ∧ f64DivBy100 35 = (6305039478318694, 54)
    ∧ dyadicVal (f64DivBy100 35) ≠ (35 : ℚ) / 100 := by
  refine ⟨by decide, by decide, by decide, ?_⟩
  have h : f64DivBy100 35 = (6305039478318694, 54) := by decide
  rw [h]
  unfold dyadicVal
  intro hc
  rw [div_eq_div_iff (by positivity) (by norm_num)] at hc
  norm_num at hc

end TaxEngine
